import Mathlib

/-!
Shallow embedding of the per-frame simulation of the top-down zombie
shooter in src/script.js.  Coordinates, velocities and times are real
numbers, mirroring the idealized semantics of the JS number arithmetic.
The stateful JS update function is modelled as a pure state transformer
on an explicit World record that gathers the module-level mutable
variables of the script.  Math.random draws are modelled as oracle
inputs carried by the input snapshot.  The reverse-index splice loops of
the script are modelled by right folds, which process the last array
element first exactly as the JS loops do.
-/

namespace ZombieShooter

noncomputable section

/-- CONFIG.playerRadius in src/script.js. -/
def playerRadius : ℝ := 16

/-- CONFIG.playerSpeed (px per second). -/
def playerSpeed : ℝ := 240

/-- CONFIG.fireRate (ms between shots). -/
def fireRate : ℝ := 200

/-- CONFIG.bulletSpeed (px per second). -/
def bulletSpeed : ℝ := 800

/-- CONFIG.bulletRadius. -/
def bulletRadius : ℝ := 4

/-- CONFIG.zombieRadius. -/
def zombieRadius : ℝ := 18

/-- CONFIG.zombieSpeedBase (px per second). -/
def zombieSpeedBase : ℝ := 50

/-- CONFIG.zombieSpeedPerLevel. -/
def zombieSpeedPerLevel : ℝ := 8

/-- CONFIG.maxZombies. -/
def maxZombies : ℤ := 40

/-- CONFIG.damageOnTouch. -/
def damageOnTouch : ℤ := 20

/-- CONFIG.startingHP. -/
def startingHP : ℤ := 100

/-- Result type of the normalize helper: a plain 2D vector. -/
@[ext] structure Vec2 where
  x : ℝ
  y : ℝ

/-- Utility clamp(v,a,b) = Math.max(a, Math.min(b, v)), used on several
number types of the script; polymorphic over a linear order. -/
def clamp {α : Type} [LinearOrder α] (v a b : α) : α := max a (min b v)

/-- Utility dist2: squared distance between two points. -/
def dist2 (ax ay cx cy : ℝ) : ℝ := (ax - cx) * (ax - cx) + (ay - cy) * (ay - cy)

/-- Utility length(x,y) = Math.sqrt(x*x + y*y). -/
def length (x y : ℝ) : ℝ := Real.sqrt (x * x + y * y)

/-- Utility normalize(x,y): returns the zero vector when the length is
zero, otherwise the unit vector in the same direction. -/
def normalize (x y : ℝ) : Vec2 :=
  if length x y = 0 then ⟨0, 0⟩ else ⟨x / length x y, y / length x y⟩

/-- Utility randRange(a,b) = a + r*(b-a), where r is the Math.random draw. -/
def randRange (a b r : ℝ) : ℝ := a + r * (b - a)

/-- Player entity: position, (unused) velocity, radius, hit points and
the timestamp of the last shot. -/
@[ext] structure Player where
  x : ℝ
  y : ℝ
  vx : ℝ
  vy : ℝ
  radius : ℝ
  hp : ℤ
  lastShot : ℝ

/-- Bullet entity: position, velocity, radius and remaining life in ms. -/
@[ext] structure Bullet where
  x : ℝ
  y : ℝ
  vx : ℝ
  vy : ℝ
  r : ℝ
  life : ℝ

/-- Zombie entity: position, radius, scalar speed and (unused) hit points. -/
@[ext] structure Zombie where
  x : ℝ
  y : ℝ
  r : ℝ
  speed : ℝ
  hp : ℤ

/-- Oracle values for the Math.random draws consumed by one spawn, in
the order the script consumes them (side pick, edge position, speed
jitter, zombie hp roll); each draw lies in [0,1) at runtime. -/
structure Rand where
  side : ℝ
  pos : ℝ
  jitter : ℝ
  hpRoll : ℝ

/-- Input snapshot for one frame: the four movement key flags, the mouse
state, and the random oracle for a potential spawn. -/
structure Input where
  keyW : Bool
  keyA : Bool
  keyS : Bool
  keyD : Bool
  mouseX : ℝ
  mouseY : ℝ
  mouseDown : Bool
  rnd : Rand

/-- The World record gathers the module-level mutable game state of the
script: canvas-derived arena size, player, entity arrays, score, the
running flag and the spawn and difficulty counters. -/
@[ext] structure World where
  arenaW : ℝ
  arenaH : ℝ
  player : Player
  bullets : List Bullet
  zombies : List Zombie
  score : ℕ
  running : Bool
  spawnTimer : ℝ
  spawnInterval : ℝ
  difficultyTimer : ℝ

/-- makePlayer(x,y) of the script. -/
def makePlayer (x y : ℝ) : Player :=
  ⟨x, y, 0, 0, playerRadius, startingHP, 0⟩

/-- makeBullet(x,y,vx,vy) of the script: bullet radius from CONFIG and a
fresh life of 1800 ms. -/
def makeBullet (x y vx vy : ℝ) : Bullet :=
  ⟨x, y, vx, vy, bulletRadius, 1800⟩

/-- makeZombie(x,y,speed): the hp field is 30 + Math.floor(random*20),
with the random draw passed explicitly. -/
def makeZombie (x y speed hpRoll : ℝ) : Zombie :=
  ⟨x, y, zombieRadius, speed, 30 + ⌊hpRoll * 20⌋⟩

/-- spawnZombie(difficultyLevel): picks a side with Math.floor(random*4),
a random position along that edge (outside the arena by 40), and a speed
scaled by the difficulty level plus a jitter in [0,10). -/
def spawnZombie (aw ah : ℝ) (difficultyLevel : ℤ) (r : Rand) : Zombie :=
  let margin : ℝ := 20
  let side : ℤ := ⌊r.side * 4⌋
  let speed : ℝ := zombieSpeedBase + (difficultyLevel : ℝ) * zombieSpeedPerLevel + r.jitter * 10
  if side = 0 then makeZombie (randRange margin (aw - margin) r.pos) (-40) speed r.hpRoll
  else if side = 1 then makeZombie (aw + 40) (randRange margin (ah - margin) r.pos) speed r.hpRoll
  else if side = 2 then makeZombie (randRange margin (aw - margin) r.pos) (ah + 40) speed r.hpRoll
  else makeZombie (-40) (randRange margin (ah - margin) r.pos) speed r.hpRoll

/-- Player movement sub-step of update: combine the WASD flags, move by
the normalized direction times playerSpeed*dt when nonzero, then clamp
both coordinates so the player radius plus a margin of 6 stays inside
the arena. -/
def movePlayer (aw ah : ℝ) (inp : Input) (dt : ℝ) (p : Player) : Player :=
  let mx : ℝ := (if inp.keyA then (-1 : ℝ) else 0) + (if inp.keyD then (1 : ℝ) else 0)
  let my : ℝ := (if inp.keyW then (-1 : ℝ) else 0) + (if inp.keyS then (1 : ℝ) else 0)
  let p1 : Player :=
    if mx ≠ 0 ∨ my ≠ 0 then
      let n := normalize mx my
      { p with x := p.x + n.x * playerSpeed * dt, y := p.y + n.y * playerSpeed * dt }
    else p
  { p1 with
    x := clamp p1.x (p.radius + 6) (aw - p.radius - 6),
    y := clamp p1.y (p.radius + 6) (ah - p.radius - 6) }

/-- tryShoot(now) of the script: no-op unless the mouse is held and the
fire-rate interval has elapsed; otherwise push a bullet at the muzzle
(player radius + 8 along the aim direction), record lastShot = now and
apply a recoil of 4 px against the aim direction.  The aim direction
comes from normalize, so an aim exactly on the player gives the zero
vector. -/
def tryShoot (now : ℝ) (inp : Input) (p : Player) (bs : List Bullet) : Player × List Bullet :=
  if inp.mouseDown = false then (p, bs)
  else if now - p.lastShot < fireRate then (p, bs)
  else
    let n := normalize (inp.mouseX - p.x) (inp.mouseY - p.y)
    let b := makeBullet (p.x + n.x * (p.radius + 8)) (p.y + n.y * (p.radius + 8))
      (n.x * bulletSpeed) (n.y * bulletSpeed)
    ({ p with x := p.x - n.x * 4, y := p.y - n.y * 4, lastShot := now }, bs ++ [b])

/-- One bullet integration step: advance by velocity*dt and count the
life down by dt in milliseconds. -/
def stepBullet (dt : ℝ) (b : Bullet) : Bullet :=
  { b with x := b.x + b.vx * dt, y := b.y + b.vy * dt, life := b.life - dt * 1000 }

/-- Removal condition of the bullet loop: expired life or more than 50
px outside the arena on any side. -/
def bulletGone (aw ah : ℝ) (b : Bullet) : Prop :=
  b.life ≤ 0 ∨ b.x < -50 ∨ b.x > aw + 50 ∨ b.y < -50 ∨ b.y > ah + 50

instance (aw ah : ℝ) (b : Bullet) : Decidable (bulletGone aw ah b) := by
  unfold bulletGone; infer_instance

/-- Bullet sub-step of update: every bullet is stepped, then the expired
or out-of-bounds ones are spliced out.  The reverse-index splice loop of
the script visits each element exactly once, so its net effect is an
order-preserving map plus filter. -/
def updateBullets (aw ah dt : ℝ) (bs : List Bullet) : List Bullet :=
  (bs.map (stepBullet dt)).filter fun b => decide (¬ bulletGone aw ah b)

/-- Chase movement of one zombie: step along the normalized direction
towards the player by speed*dt. -/
def moveZombie (px py dt : ℝ) (z : Zombie) : Zombie :=
  let n := normalize (px - z.x) (py - z.y)
  { z with x := z.x + n.x * z.speed * dt, y := z.y + n.y * z.speed * dt }

/-- Player-contact condition checked right after the chase movement:
squared distance below the squared sum of the radii. -/
def zombieContact (px py pr dt : ℝ) (z : Zombie) : Prop :=
  let z1 := moveZombie px py dt z
  dist2 z1.x z1.y px py < (z1.r + pr) * (z1.r + pr)

instance (px py pr dt : ℝ) (z : Zombie) : Decidable (zombieContact px py pr dt z) := by
  unfold zombieContact; infer_instance

/-- Bullet-zombie collision condition of the inner bullet loop. -/
def bulletHits (z : Zombie) (b : Bullet) : Prop :=
  dist2 b.x b.y z.x z.y < (b.r + z.r) * (b.r + z.r)

instance (z : Zombie) (b : Bullet) : Decidable (bulletHits z b) := by
  unfold bulletHits; infer_instance

/-- Net effect of the inner bullet loop of the zombie pass: the loop
scans bullets from the highest index downwards and splices out the first
colliding one it meets, then breaks.  On a list this removes the last
element that collides, if any. -/
def removeLastHit (z : Zombie) : List Bullet → Option (List Bullet)
  | [] => none
  | b :: bs =>
    match removeLastHit z bs with
    | some bs1 => some (b :: bs1)
    | none => if bulletHits z b then some bs else none

/-- Accumulator of the zombie pass: zombies already processed and kept,
the live bullet array, player hp, score and the running flag. -/
@[ext] structure ZState where
  zombies : List Zombie
  bullets : List Bullet
  hp : ℤ
  score : ℕ
  running : Bool

/-- Processing of a single zombie inside the zombie pass: chase the
player; on contact subtract damageOnTouch from the player hp, drop the
zombie (the script also pushes it back 15 px just before the splice,
which is unobservable) and clear running when the new hp is at or
below 0; otherwise scan the bullets, and on a hit drop the zombie and
that bullet and add 10 to the score; otherwise keep the moved zombie. -/
def zombieStep (px py pr dt : ℝ) (z : Zombie) (s : ZState) : ZState :=
  if zombieContact px py pr dt z then
    { s with
      hp := s.hp - damageOnTouch,
      running := if s.hp - damageOnTouch ≤ 0 then false else s.running }
  else
    match removeLastHit (moveZombie px py dt z) s.bullets with
    | some bs1 => { s with bullets := bs1, score := s.score + 10 }
    | none => { s with zombies := moveZombie px py dt z :: s.zombies }

/-- The zombie pass: the script iterates the zombie array from the last
index to the first, so a right fold (which reaches the last element
first) reproduces it; surviving zombies are re-assembled in order. -/
def runZombies (px py pr dt : ℝ) (zs : List Zombie) (s : ZState) : ZState :=
  zs.foldr (zombieStep px py pr dt) s

/-- Player after the movement and shooting sub-steps of one frame,
together with the bullet array right after a potential shot. -/
def shootPhase (w : World) (dt now : ℝ) (inp : Input) : Player × List Bullet :=
  tryShoot now inp (movePlayer w.arenaW w.arenaH inp dt w.player) w.bullets

/-- Bullet array after the bullet integration and expiry sub-step. -/
def bulletPhase (w : World) (dt now : ℝ) (inp : Input) : List Bullet :=
  updateBullets w.arenaW w.arenaH dt (shootPhase w dt now inp).2

/-- State after the zombie pass of one frame. -/
def zombiePhase (w : World) (dt now : ℝ) (inp : Input) : ZState :=
  let p2 := (shootPhase w dt now inp).1
  runZombies p2.x p2.y p2.radius dt w.zombies
    ⟨[], bulletPhase w dt now inp, p2.hp, w.score, w.running⟩

/-- difficultyLevel of the frame: floor of the accumulated difficulty
timer (already incremented by this frame) over 15000 ms. -/
def difficultyLevelAfter (w : World) (dt : ℝ) : ℤ :=
  ⌊(w.difficultyTimer + dt * 1000) / 15000⌋

/-- desiredMaxZombies = clamp(5 + difficultyLevel*2 + floor(score/100), 6, CONFIG.maxZombies). -/
def desiredMaxZombies (dl : ℤ) (score : ℕ) : ℤ :=
  clamp (5 + dl * 2 + ((score / 100 : ℕ) : ℤ)) 6 maxZombies

/-- Spawn condition of the frame: the incremented spawn timer exceeds
the current spawn interval and the zombie count after the zombie pass is
strictly below desiredMaxZombies. -/
def spawnCond (w : World) (dt now : ℝ) (inp : Input) : Prop :=
  w.spawnTimer + dt * 1000 > w.spawnInterval ∧
    (((zombiePhase w dt now inp).zombies.length : ℤ) <
      desiredMaxZombies (difficultyLevelAfter w dt) (zombiePhase w dt now inp).score)

instance (w : World) (dt now : ℝ) (inp : Input) : Decidable (spawnCond w dt now inp) := by
  unfold spawnCond; infer_instance

/-- update(dt, now) of the script as a pure function of the world and
the input snapshot: player movement, shooting, bullet integration, the
zombie pass, then the spawn and difficulty logic.  On a spawn the spawn
timer resets to 0 and the spawn interval is recomputed as
clamp(1000 - difficultyLevel*50, 380, 2000). -/
def update (w : World) (dt now : ℝ) (inp : Input) : World :=
  let p2 := (shootPhase w dt now inp).1
  let zs := zombiePhase w dt now inp
  let dl := difficultyLevelAfter w dt
  if spawnCond w dt now inp then
    { arenaW := w.arenaW, arenaH := w.arenaH,
      player := { p2 with hp := zs.hp },
      bullets := zs.bullets,
      zombies := zs.zombies ++ [spawnZombie w.arenaW w.arenaH dl inp.rnd],
      score := zs.score,
      running := zs.running,
      spawnTimer := 0,
      spawnInterval := clamp (1000 - (dl : ℝ) * 50) 380 2000,
      difficultyTimer := w.difficultyTimer + dt * 1000 }
  else
    { w with
      player := { p2 with hp := zs.hp },
      bullets := zs.bullets,
      zombies := zs.zombies,
      score := zs.score,
      running := zs.running,
      spawnTimer := w.spawnTimer + dt * 1000,
      difficultyTimer := w.difficultyTimer + dt * 1000 }

/-- One frame of gameLoop: update runs only while the running flag is
set, otherwise the world is left untouched. -/
def advance (w : World) (dt now : ℝ) (inp : Input) : World :=
  if w.running then update w dt now inp else w

/-- One frame worth of host-supplied data. -/
structure Frame where
  dt : ℝ
  now : ℝ
  inp : Input

/-- advance packaged over a Frame record. -/
def stepFrame (w : World) (f : Frame) : World :=
  advance w f.dt f.now f.inp

/-- A sequence of frames applied in order. -/
def advanceSeq (w : World) (fs : List Frame) : World :=
  fs.foldl stepFrame w

/-- Number of zombies of the list that trigger the player-contact branch
this frame; the contact condition of a zombie depends only on the zombie
and the player position, so it is a plain count. -/
def contactCount (px py pr dt : ℝ) (zs : List Zombie) : ℕ :=
  zs.countP fun z => decide (zombieContact px py pr dt z)

/-- Contact count of a whole frame, taken against the player position
after the movement and shooting sub-steps. -/
def frameContacts (w : World) (dt now : ℝ) (inp : Input) : ℕ :=
  let p2 := (shootPhase w dt now inp).1
  contactCount p2.x p2.y p2.radius dt w.zombies

/-! ### Helper lemmas about the geometry utilities -/

theorem clamp_of_mem {α : Type} [LinearOrder α] {v a b : α} (h1 : a ≤ v) (h2 : v ≤ b) :
    clamp v a b = v := by
  unfold clamp
  rw [min_eq_right h2, max_eq_right h1]

theorem le_clamp {α : Type} [LinearOrder α] (v a b : α) : a ≤ clamp v a b :=
  le_max_left a _

theorem clamp_le {α : Type} [LinearOrder α] {a b : α} (v : α) (hab : a ≤ b) :
    clamp v a b ≤ b :=
  max_le hab (min_le_left b v)

theorem length_zero : length 0 0 = 0 := by
  unfold length
  norm_num

theorem normalize_zero : normalize 0 0 = ⟨0, 0⟩ := by
  unfold normalize
  rw [if_pos length_zero]

theorem normalize_of_length_zero {x y : ℝ} (h : length x y = 0) : normalize x y = ⟨0, 0⟩ := by
  unfold normalize
  rw [if_pos h]

theorem length_pos_x {d : ℝ} (h : 0 < d) : length d 0 = d := by
  unfold length
  rw [mul_zero, add_zero]
  exact Real.sqrt_mul_self h.le

theorem length_neg_x {d : ℝ} (h : 0 < d) : length (-d) 0 = d := by
  unfold length
  rw [mul_zero, add_zero, neg_mul_neg]
  exact Real.sqrt_mul_self h.le

theorem normalize_pos_x {d : ℝ} (h : 0 < d) : normalize d 0 = ⟨1, 0⟩ := by
  unfold normalize
  rw [length_pos_x h, if_neg h.ne']
  ext <;> simp [div_self h.ne']

theorem normalize_neg_x {d : ℝ} (h : 0 < d) : normalize (-d) 0 = ⟨-1, 0⟩ := by
  unfold normalize
  rw [length_neg_x h, if_neg h.ne']
  ext <;> simp [neg_div, div_self h.ne']

theorem abs_le_length_x (x y : ℝ) : |x| ≤ length x y := by
  unfold length
  rw [← Real.sqrt_mul_self_eq_abs]
  exact Real.sqrt_le_sqrt (by nlinarith [mul_self_nonneg y])

theorem abs_le_length_y (x y : ℝ) : |y| ≤ length x y := by
  unfold length
  rw [← Real.sqrt_mul_self_eq_abs]
  exact Real.sqrt_le_sqrt (by nlinarith [mul_self_nonneg x])

theorem normalize_x_abs_le (x y : ℝ) : |(normalize x y).x| ≤ 1 := by
  unfold normalize
  split_ifs with h
  · simp
  · have hpos : 0 < length x y := (Real.sqrt_nonneg _).lt_of_ne (Ne.symm h)
    simp only
    rw [abs_div, abs_of_pos hpos, div_le_one hpos]
    exact abs_le_length_x x y

theorem normalize_y_abs_le (x y : ℝ) : |(normalize x y).y| ≤ 1 := by
  unfold normalize
  split_ifs with h
  · simp
  · have hpos : 0 < length x y := (Real.sqrt_nonneg _).lt_of_ne (Ne.symm h)
    simp only
    rw [abs_div, abs_of_pos hpos, div_le_one hpos]
    exact abs_le_length_y x y

/-! ### Helper lemmas about the frame sub-steps -/

theorem stepBullet_zero (b : Bullet) : stepBullet 0 b = b := by
  ext <;> simp [stepBullet]

theorem map_stepBullet_zero (bs : List Bullet) : bs.map (stepBullet 0) = bs := by
  induction bs with
  | nil => rfl
  | cons b t ih => simp [stepBullet_zero, ih]

theorem moveZombie_zero (px py : ℝ) (z : Zombie) : moveZombie px py 0 z = z := by
  ext <;> simp [moveZombie]

theorem zombieContact_zero (px py pr : ℝ) (z : Zombie) :
    zombieContact px py pr 0 z ↔ dist2 z.x z.y px py < (z.r + pr) * (z.r + pr) := by
  unfold zombieContact
  rw [moveZombie_zero]

theorem zombieStep_contact {px py pr dt : ℝ} {z : Zombie} (s : ZState)
    (h : zombieContact px py pr dt z) :
    zombieStep px py pr dt z s =
      { s with
        hp := s.hp - damageOnTouch,
        running := if s.hp - damageOnTouch ≤ 0 then false else s.running } := by
  unfold zombieStep
  rw [if_pos h]

theorem zombieStep_kill {px py pr dt : ℝ} {z : Zombie} {bs1 : List Bullet} (s : ZState)
    (h : ¬ zombieContact px py pr dt z)
    (hr : removeLastHit (moveZombie px py dt z) s.bullets = some bs1) :
    zombieStep px py pr dt z s = { s with bullets := bs1, score := s.score + 10 } := by
  unfold zombieStep
  rw [if_neg h, hr]

theorem zombieStep_keep {px py pr dt : ℝ} {z : Zombie} (s : ZState)
    (h : ¬ zombieContact px py pr dt z)
    (hr : removeLastHit (moveZombie px py dt z) s.bullets = none) :
    zombieStep px py pr dt z s = { s with zombies := moveZombie px py dt z :: s.zombies } := by
  unfold zombieStep
  rw [if_neg h, hr]

theorem removeLastHit_none (z : Zombie) (bs : List Bullet)
    (h : ∀ b ∈ bs, ¬ bulletHits z b) : removeLastHit z bs = none := by
  induction bs with
  | nil => rfl
  | cons b t ih =>
    simp only [removeLastHit]
    rw [ih fun b' hb' => h b' (List.mem_cons_of_mem _ hb')]
    exact if_neg (h b (List.mem_cons_self b t))

theorem removeLastHit_sublist (z : Zombie) (bs : List Bullet) :
    ∀ bs1, removeLastHit z bs = some bs1 → bs1.Sublist bs := by
  induction bs with
  | nil => intro bs1 h; simp [removeLastHit] at h
  | cons b t ih =>
    intro bs1 h
    simp only [removeLastHit] at h
    cases hr : removeLastHit z t with
    | some t1 =>
      rw [hr] at h
      injection h with h1
      rw [← h1]
      exact (ih t1 hr).cons₂ b
    | none =>
      rw [hr] at h
      by_cases hb : bulletHits z b
      · rw [if_pos hb] at h
        injection h with h1
        rw [← h1]
        exact List.sublist_cons_self b t
      · rw [if_neg hb] at h
        exact absurd h (by simp)

theorem removeLastHit_spec (z : Zombie) (b : Bullet) (r : List Bullet)
    (hb : bulletHits z b) (hr : ∀ b' ∈ r, ¬ bulletHits z b') :
    ∀ l : List Bullet, removeLastHit z (l ++ b :: r) = some (l ++ r) := by
  intro l
  induction l with
  | nil =>
    simp only [List.nil_append, removeLastHit]
    rw [removeLastHit_none z r hr]
    exact if_pos hb
  | cons a t ih =>
    simp only [List.cons_append, removeLastHit, List.append_eq]
    rw [ih]

/-! ### Invariants of the zombie pass -/

theorem contactCount_nil (px py pr dt : ℝ) : contactCount px py pr dt [] = 0 := rfl

theorem contactCount_cons (px py pr dt : ℝ) (z : Zombie) (t : List Zombie) :
    contactCount px py pr dt (z :: t) =
      contactCount px py pr dt t + if zombieContact px py pr dt z then 1 else 0 := by
  by_cases h : zombieContact px py pr dt z <;>
    simp [contactCount, List.countP_cons, h]

theorem runZombies_nil (px py pr dt : ℝ) (s : ZState) : runZombies px py pr dt [] s = s := rfl

theorem runZombies_cons (px py pr dt : ℝ) (z : Zombie) (t : List Zombie) (s : ZState) :
    runZombies px py pr dt (z :: t) s = zombieStep px py pr dt z (runZombies px py pr dt t s) :=
  rfl

theorem zombieStep_hp_of_not_contact {px py pr dt : ℝ} {z : Zombie} (s : ZState)
    (h : ¬ zombieContact px py pr dt z) :
    (zombieStep px py pr dt z s).hp = s.hp ∧
      (zombieStep px py pr dt z s).running = s.running := by
  cases hr : removeLastHit (moveZombie px py dt z) s.bullets with
  | some bs1 => rw [zombieStep_kill s h hr]; exact ⟨rfl, rfl⟩
  | none => rw [zombieStep_keep s h hr]; exact ⟨rfl, rfl⟩

theorem runZombies_hp (px py pr dt : ℝ) (zs : List Zombie) (s : ZState) :
    (runZombies px py pr dt zs s).hp =
      s.hp - damageOnTouch * (contactCount px py pr dt zs : ℤ) := by
  induction zs with
  | nil => simp [runZombies_nil, contactCount_nil]
  | cons z t ih =>
    rw [runZombies_cons, contactCount_cons]
    by_cases hc : zombieContact px py pr dt z
    · rw [zombieStep_contact _ hc]
      show (runZombies px py pr dt t s).hp - damageOnTouch = _
      rw [ih, if_pos hc]
      push_cast
      ring
    · rw [(zombieStep_hp_of_not_contact _ hc).1, ih, if_neg hc]
      push_cast
      ring

theorem runZombies_running (px py pr dt : ℝ) (zs : List Zombie) (s : ZState) :
    ((runZombies px py pr dt zs s).running = false ↔
      (s.running = false ∨ (0 < contactCount px py pr dt zs ∧
        s.hp - damageOnTouch * (contactCount px py pr dt zs : ℤ) ≤ 0))) := by
  have hd : (0 : ℤ) < damageOnTouch := by norm_num [damageOnTouch]
  induction zs with
  | nil =>
    rw [runZombies_nil, contactCount_nil]
    simp
  | cons z t ih =>
    rw [runZombies_cons, contactCount_cons]
    have hhp := runZombies_hp px py pr dt t s
    by_cases hc : zombieContact px py pr dt z
    · rw [zombieStep_contact _ hc, if_pos hc]
      show ((if (runZombies px py pr dt t s).hp - damageOnTouch ≤ 0 then false
          else (runZombies px py pr dt t s).running) = false) ↔ _
      by_cases hle : (runZombies px py pr dt t s).hp - damageOnTouch ≤ 0
      · rw [if_pos hle]
        rw [hhp] at hle
        have hle2 : s.hp - damageOnTouch * ((contactCount px py pr dt t + 1 : ℕ) : ℤ) ≤ 0 := by
          push_cast
          rw [mul_add, mul_one]
          linarith
        constructor
        · intro _
          exact Or.inr ⟨by omega, hle2⟩
        · intro _
          rfl
      · rw [if_neg hle]
        refine ih.trans ?_
        rw [hhp] at hle
        constructor
        · rintro (h0 | ⟨hpos, hle2⟩)
          · exact Or.inl h0
          · exact absurd (by linarith : s.hp - damageOnTouch * (contactCount px py pr dt t : ℤ)
              - damageOnTouch ≤ 0) hle
        · rintro (h0 | ⟨hpos, hle2⟩)
          · exact Or.inl h0
          · exfalso
            apply hle
            push_cast at hle2
            rw [mul_add, mul_one] at hle2
            linarith
    · rw [(zombieStep_hp_of_not_contact _ hc).2, if_neg hc, add_zero]
      exact ih

theorem runZombies_score (px py pr dt : ℝ) (zs : List Zombie) (s : ZState) :
    ∃ k : ℕ, (runZombies px py pr dt zs s).score = s.score + 10 * k := by
  induction zs with
  | nil => exact ⟨0, by simp [runZombies_nil]⟩
  | cons z t ih =>
    obtain ⟨k, hk⟩ := ih
    rw [runZombies_cons]
    by_cases hc : zombieContact px py pr dt z
    · exact ⟨k, by rw [zombieStep_contact _ hc]; exact hk⟩
    · cases hr : removeLastHit (moveZombie px py dt z) (runZombies px py pr dt t s).bullets with
      | some bs1 =>
        refine ⟨k + 1, ?_⟩
        rw [zombieStep_kill _ hc hr]
        show (runZombies px py pr dt t s).score + 10 = _
        rw [hk]
        ring
      | none => exact ⟨k, by rw [zombieStep_keep _ hc hr]; exact hk⟩

theorem runZombies_bullets_sublist (px py pr dt : ℝ) (zs : List Zombie) (s : ZState) :
    ((runZombies px py pr dt zs s).bullets).Sublist s.bullets := by
  induction zs with
  | nil => exact List.Sublist.refl _
  | cons z t ih =>
    rw [runZombies_cons]
    by_cases hc : zombieContact px py pr dt z
    · rw [zombieStep_contact _ hc]; exact ih
    · cases hr : removeLastHit (moveZombie px py dt z) (runZombies px py pr dt t s).bullets with
      | some bs1 =>
        rw [zombieStep_kill _ hc hr]
        exact (removeLastHit_sublist _ _ _ hr).trans ih
      | none => rw [zombieStep_keep _ hc hr]; exact ih

theorem runZombies_keep_all (px py pr dt : ℝ) (zs : List Zombie) (s : ZState)
    (hnc : ∀ z ∈ zs, ¬ zombieContact px py pr dt z)
    (hnh : ∀ z ∈ zs, removeLastHit (moveZombie px py dt z) s.bullets = none) :
    runZombies px py pr dt zs s =
      { s with zombies := zs.map (moveZombie px py dt) ++ s.zombies } := by
  induction zs with
  | nil => rw [runZombies_nil]; ext <;> simp
  | cons z t ih =>
    have hrec := ih (fun z' hz' => hnc z' (List.mem_cons_of_mem _ hz'))
      (fun z' hz' => hnh z' (List.mem_cons_of_mem _ hz'))
    have hbul : (runZombies px py pr dt t s).bullets = s.bullets := by rw [hrec]
    have hr2 : removeLastHit (moveZombie px py dt z) (runZombies px py pr dt t s).bullets
        = none := by
      rw [hbul]
      exact hnh z (List.mem_cons_self z t)
    rw [runZombies_cons, zombieStep_keep _ (hnc z (List.mem_cons_self z t)) hr2, hrec]
    ext <;> simp

/-! ### Frame-level lemmas -/

theorem movePlayer_aux (aw ah : ℝ) (inp : Input) (dt : ℝ) (p : Player) :
    (movePlayer aw ah inp dt p).hp = p.hp ∧ (movePlayer aw ah inp dt p).radius = p.radius ∧
      (movePlayer aw ah inp dt p).lastShot = p.lastShot := by
  unfold movePlayer
  dsimp only
  split_ifs <;> exact ⟨rfl, rfl, rfl⟩

theorem tryShoot_aux (now : ℝ) (inp : Input) (p : Player) (bs : List Bullet) :
    ((tryShoot now inp p bs).1).hp = p.hp ∧ ((tryShoot now inp p bs).1).radius = p.radius := by
  unfold tryShoot
  dsimp only
  split_ifs <;> exact ⟨rfl, rfl⟩

theorem shootPhase_hp (w : World) (dt now : ℝ) (inp : Input) :
    (shootPhase w dt now inp).1.hp = w.player.hp := by
  unfold shootPhase
  rw [(tryShoot_aux _ _ _ _).1, (movePlayer_aux _ _ _ _ _).1]

theorem shootPhase_radius (w : World) (dt now : ℝ) (inp : Input) :
    (shootPhase w dt now inp).1.radius = w.player.radius := by
  unfold shootPhase
  rw [(tryShoot_aux _ _ _ _).2, (movePlayer_aux _ _ _ _ _).2.1]

theorem update_player_hp (w : World) (dt now : ℝ) (inp : Input) :
    (update w dt now inp).player.hp = (zombiePhase w dt now inp).hp := by
  simp only [update]
  split_ifs <;> rfl

theorem update_player_x (w : World) (dt now : ℝ) (inp : Input) :
    (update w dt now inp).player.x = (shootPhase w dt now inp).1.x := by
  simp only [update]
  split_ifs <;> rfl

theorem update_player_y (w : World) (dt now : ℝ) (inp : Input) :
    (update w dt now inp).player.y = (shootPhase w dt now inp).1.y := by
  simp only [update]
  split_ifs <;> rfl

theorem update_score_eq (w : World) (dt now : ℝ) (inp : Input) :
    (update w dt now inp).score = (zombiePhase w dt now inp).score := by
  simp only [update]
  split_ifs <;> rfl

theorem update_running_eq (w : World) (dt now : ℝ) (inp : Input) :
    (update w dt now inp).running = (zombiePhase w dt now inp).running := by
  simp only [update]
  split_ifs <;> rfl

theorem update_bullets_eq (w : World) (dt now : ℝ) (inp : Input) :
    (update w dt now inp).bullets = (zombiePhase w dt now inp).bullets := by
  simp only [update]
  split_ifs <;> rfl

theorem update_spawn (w : World) (dt now : ℝ) (inp : Input) (h : spawnCond w dt now inp) :
    (update w dt now inp).zombies = (zombiePhase w dt now inp).zombies ++
        [spawnZombie w.arenaW w.arenaH (difficultyLevelAfter w dt) inp.rnd] ∧
      (update w dt now inp).spawnTimer = 0 := by
  simp only [update]
  rw [if_pos h]
  exact ⟨rfl, rfl⟩

theorem update_no_spawn (w : World) (dt now : ℝ) (inp : Input) (h : ¬ spawnCond w dt now inp) :
    (update w dt now inp).zombies = (zombiePhase w dt now inp).zombies ∧
      (update w dt now inp).spawnTimer = w.spawnTimer + dt * 1000 := by
  simp only [update]
  rw [if_neg h]
  exact ⟨rfl, rfl⟩

theorem zombiePhase_hp (w : World) (dt now : ℝ) (inp : Input) :
    (zombiePhase w dt now inp).hp =
      w.player.hp - damageOnTouch * (frameContacts w dt now inp : ℤ) := by
  unfold zombiePhase frameContacts
  rw [runZombies_hp]
  rw [show (ZState.hp ⟨[], bulletPhase w dt now inp, (shootPhase w dt now inp).1.hp,
    w.score, w.running⟩) = (shootPhase w dt now inp).1.hp from rfl]
  rw [shootPhase_hp]

theorem zombiePhase_running (w : World) (dt now : ℝ) (inp : Input) :
    ((zombiePhase w dt now inp).running = false ↔
      (w.running = false ∨ (0 < frameContacts w dt now inp ∧
        w.player.hp - damageOnTouch * (frameContacts w dt now inp : ℤ) ≤ 0))) := by
  unfold zombiePhase frameContacts
  rw [runZombies_running]
  rw [show (ZState.hp ⟨[], bulletPhase w dt now inp, (shootPhase w dt now inp).1.hp,
    w.score, w.running⟩) = (shootPhase w dt now inp).1.hp from rfl]
  rw [shootPhase_hp]

theorem zombiePhase_score (w : World) (dt now : ℝ) (inp : Input) :
    ∃ k : ℕ, (zombiePhase w dt now inp).score = w.score + 10 * k := by
  unfold zombiePhase
  exact runZombies_score _ _ _ _ _ _

theorem zombiePhase_bullets_sublist (w : World) (dt now : ℝ) (inp : Input) :
    ((zombiePhase w dt now inp).bullets).Sublist (bulletPhase w dt now inp) := by
  unfold zombiePhase
  exact runZombies_bullets_sublist _ _ _ _ _ _

theorem update_hp (w : World) (dt now : ℝ) (inp : Input) :
    (update w dt now inp).player.hp =
      w.player.hp - damageOnTouch * (frameContacts w dt now inp : ℤ) :=
  (update_player_hp w dt now inp).trans (zombiePhase_hp w dt now inp)

theorem update_running_iff (w : World) (dt now : ℝ) (inp : Input) :
    ((update w dt now inp).running = false ↔
      (w.running = false ∨ (0 < frameContacts w dt now inp ∧
        w.player.hp - damageOnTouch * (frameContacts w dt now inp : ℤ) ≤ 0))) := by
  rw [update_running_eq]
  exact zombiePhase_running w dt now inp

theorem advance_noop (w : World) (dt now : ℝ) (inp : Input) (h : w.running = false) :
    advance w dt now inp = w := by
  simp [advance, h]

theorem advance_of_running (w : World) (dt now : ℝ) (inp : Input) (h : w.running = true) :
    advance w dt now inp = update w dt now inp := by
  simp [advance, h]

theorem advance_score (w : World) (dt now : ℝ) (inp : Input) :
    ∃ k : ℕ, (advance w dt now inp).score = w.score + 10 * k := by
  unfold advance
  split_ifs with h
  · obtain ⟨k, hk⟩ := zombiePhase_score w dt now inp
    exact ⟨k, (update_score_eq w dt now inp).trans hk⟩
  · exact ⟨0, by simp⟩

theorem advanceSeq_cons (w : World) (f : Frame) (t : List Frame) :
    advanceSeq w (f :: t) = advanceSeq (stepFrame w f) t := rfl

theorem advanceSeq_score_mono (fs : List Frame) : ∀ w : World,
    w.score ≤ (advanceSeq w fs).score := by
  induction fs with
  | nil => intro w; exact le_refl _
  | cons f t ih =>
    intro w
    rw [advanceSeq_cons]
    refine le_trans ?_ (ih (stepFrame w f))
    obtain ⟨k, hk⟩ := advance_score w f.dt f.now f.inp
    show w.score ≤ (advance w f.dt f.now f.inp).score
    rw [hk]
    exact Nat.le_add_right _ _

/-! ### Evaluation lemmas for concrete frames -/

theorem movePlayer_idle (aw ah : ℝ) (inp : Input) (dt : ℝ) (p : Player)
    (hW : inp.keyW = false) (hA : inp.keyA = false) (hS : inp.keyS = false)
    (hD : inp.keyD = false)
    (hx1 : p.radius + 6 ≤ p.x) (hx2 : p.x ≤ aw - p.radius - 6)
    (hy1 : p.radius + 6 ≤ p.y) (hy2 : p.y ≤ ah - p.radius - 6) :
    movePlayer aw ah inp dt p = p := by
  unfold movePlayer
  rw [hW, hA, hS, hD]
  dsimp only
  rw [if_neg (by norm_num)]
  rw [clamp_of_mem hx1 hx2, clamp_of_mem hy1 hy2]

theorem tryShoot_idle (now : ℝ) (inp : Input) (p : Player) (bs : List Bullet)
    (h : inp.mouseDown = false) : tryShoot now inp p bs = (p, bs) := by
  unfold tryShoot
  rw [h, if_pos rfl]

theorem tryShoot_cooling (now : ℝ) (inp : Input) (p : Player) (bs : List Bullet)
    (h : now - p.lastShot < fireRate) : tryShoot now inp p bs = (p, bs) := by
  unfold tryShoot
  by_cases h1 : inp.mouseDown = false
  · rw [if_pos h1]
  · rw [if_neg h1, if_pos h]

/-- Shared concrete input snapshot: no keys held, mouse at the origin
and not held, zero random draws. -/
def baseInput : Input := ⟨false, false, false, false, 0, 0, false, ⟨0, 0, 0, 0⟩⟩

/-- Shared concrete world: 640 x 640 arena, player resting at the
centre with full hp, no entities, fresh counters, round running. -/
def baseWorld : World := ⟨640, 640, ⟨320, 320, 0, 0, 16, 100, 0⟩, [], [], 0, true, 0, 1500, 0⟩

/-! ### Claims -/

/-- Claim C8: the geometry helper normalize is a total function on real
input vectors — it is defined for every input and raises no error — and
whenever the computed length is zero, in particular on the zero vector,
it returns exactly the zero vector instead of dividing by zero. -/
theorem claim_C8 :
    normalize 0 0 = ⟨0, 0⟩ ∧ ∀ x y : ℝ, length x y = 0 → normalize x y = ⟨0, 0⟩ :=
  ⟨normalize_zero, fun _ _ h => normalize_of_length_zero h⟩

/-- Witness for C8: the zero-length hypothesis discharged at the
concrete zero vector. -/
theorem claim_C8_witness : normalize 0 0 = ⟨0, 0⟩ :=
  claim_C8.2 0 0 (by rw [length_zero])

/-- Claim C7: one advance call changes the score by exactly 10 times
the number of zombies killed by bullets in that frame (never a
decrease), and across every sequence of advance calls the score is
monotonically non-decreasing. -/
theorem claim_C7 :
    (∀ (w : World) (f : Frame), ∃ k : ℕ, (stepFrame w f).score = w.score + 10 * k) ∧
      ∀ (w : World) (fs : List Frame), w.score ≤ (advanceSeq w fs).score :=
  ⟨fun w f => advance_score w f.dt f.now f.inp, fun w fs => advanceSeq_score_mono fs w⟩

/-- Claim C6: a zombie is spawned in a frame exactly when the
incremented spawn timer exceeds the spawn interval and the zombie count
after the zombie pass is strictly below desiredMaxZombies =
clamp(5 + difficultyLevel*2 + floor(score/100), 6, CONFIG.maxZombies)
with difficultyLevel = floor(difficultyElapsedMs/15000); hence no spawn
happens at or above the cap, at most one zombie is spawned per frame,
and the spawn timer resets to 0 on a spawn. -/
theorem claim_C6 (w : World) (dt now : ℝ) (inp : Input) :
    (spawnCond w dt now inp →
      (update w dt now inp).zombies = (zombiePhase w dt now inp).zombies ++
          [spawnZombie w.arenaW w.arenaH (difficultyLevelAfter w dt) inp.rnd] ∧
        (update w dt now inp).spawnTimer = 0) ∧
    (¬ spawnCond w dt now inp →
      (update w dt now inp).zombies = (zombiePhase w dt now inp).zombies) ∧
    (desiredMaxZombies (difficultyLevelAfter w dt) (zombiePhase w dt now inp).score ≤
        ((zombiePhase w dt now inp).zombies.length : ℤ) →
      (update w dt now inp).zombies = (zombiePhase w dt now inp).zombies) ∧
    (update w dt now inp).zombies.length ≤ (zombiePhase w dt now inp).zombies.length + 1 := by
  refine ⟨fun h => update_spawn w dt now inp h,
    fun h => (update_no_spawn w dt now inp h).1, ?_, ?_⟩
  · intro hge
    refine (update_no_spawn w dt now inp ?_).1
    intro hc
    exact absurd hc.2 (not_lt.mpr hge)
  · by_cases h : spawnCond w dt now inp
    · rw [(update_spawn w dt now inp h).1]
      simp
    · rw [(update_no_spawn w dt now inp h).1]
      exact Nat.le_succ _

/-- Witness for C6: on the concrete base world the spawn timer has not
passed the interval, so no zombie is spawned. -/
theorem claim_C6_witness :
    (update baseWorld 0 0 baseInput).zombies = (zombiePhase baseWorld 0 0 baseInput).zombies :=
  (claim_C6 baseWorld 0 0 baseInput).2.1
    (fun hc => absurd hc.1 (by norm_num [baseWorld]))

/-- Claim C10: every bullet present after a frame is the integration
image of a bullet present right after the shooting sub-step of that
frame: its velocity vector and radius are unchanged, its position is
advanced by exactly velocity*dt, and its remaining lifetime is
decremented by exactly dt in milliseconds. -/
theorem claim_C10 (w : World) (dt now : ℝ) (inp : Input) (b' : Bullet)
    (hmem : b' ∈ (update w dt now inp).bullets) :
    ∃ b ∈ (shootPhase w dt now inp).2,
      b'.vx = b.vx ∧ b'.vy = b.vy ∧ b'.r = b.r ∧
        b'.x = b.x + b.vx * dt ∧ b'.y = b.y + b.vy * dt ∧ b'.life = b.life - dt * 1000 := by
  rw [update_bullets_eq] at hmem
  have h2 : b' ∈ bulletPhase w dt now inp :=
    (zombiePhase_bullets_sublist w dt now inp).subset hmem
  unfold bulletPhase updateBullets at h2
  have h3 : b' ∈ ((shootPhase w dt now inp).2).map (stepBullet dt) :=
    List.mem_of_mem_filter h2
  obtain ⟨b, hb, hb'⟩ := List.mem_map.mp h3
  refine ⟨b, hb, ?_⟩
  rw [← hb']
  exact ⟨rfl, rfl, rfl, rfl, rfl, rfl⟩

/-- Concrete resting bullet used by the C10 witness. -/
def cBullet : Bullet := ⟨100, 100, 0, 0, 4, 1800⟩

/-- Base world carrying the single concrete bullet. -/
def worldC10 : World := { baseWorld with bullets := [cBullet] }

theorem shootPhase_worldC10 :
    shootPhase worldC10 0 5 baseInput = (worldC10.player, [cBullet]) := by
  unfold shootPhase
  rw [movePlayer_idle _ _ _ _ _ rfl rfl rfl rfl
    (by norm_num [worldC10, baseWorld]) (by norm_num [worldC10, baseWorld])
    (by norm_num [worldC10, baseWorld]) (by norm_num [worldC10, baseWorld])]
  exact tryShoot_idle _ _ _ _ rfl

theorem bullets_worldC10 : (update worldC10 0 5 baseInput).bullets = [cBullet] := by
  rw [update_bullets_eq]
  unfold zombiePhase
  dsimp only
  rw [show worldC10.zombies = [] from rfl, runZombies_nil]
  show bulletPhase worldC10 0 5 baseInput = [cBullet]
  unfold bulletPhase
  rw [show (shootPhase worldC10 0 5 baseInput).2 = [cBullet] by rw [shootPhase_worldC10]]
  unfold updateBullets
  rw [map_stepBullet_zero]
  simp only [List.filter, decide_eq_true_eq]
  norm_num [bulletGone, cBullet, worldC10, baseWorld]

/-- Witness for C10: the concrete resting bullet survives the frame and
is its own integration image under dt = 0. -/
theorem claim_C10_witness :
    ∃ b ∈ (shootPhase worldC10 0 5 baseInput).2,
      cBullet.vx = b.vx ∧ cBullet.vy = b.vy ∧ cBullet.r = b.r ∧
        cBullet.x = b.x + b.vx * 0 ∧ cBullet.y = b.y + b.vy * 0 ∧
        cBullet.life = b.life - 0 * 1000 :=
  claim_C10 worldC10 0 5 baseInput cBullet
    (by rw [bullets_worldC10]; exact List.mem_singleton.mpr rfl)

/-! ### Claim C2 -/

/-- Behaviour of tryShoot when the aim target coincides with the player
position: the guard in normalize returns the zero vector, so the shot
still goes through with a zero direction. -/
theorem tryShoot_self_aim (now : ℝ) (inp : Input) (p : Player) (bs : List Bullet)
    (hdown : inp.mouseDown = true) (hrate : ¬ (now - p.lastShot < fireRate))
    (hax : inp.mouseX = p.x) (hay : inp.mouseY = p.y) :
    tryShoot now inp p bs = ({ p with lastShot := now }, bs ++ [makeBullet p.x p.y 0 0]) := by
  unfold tryShoot
  rw [hdown, if_neg (by norm_num), if_neg hrate, hax, hay, sub_self, sub_self, normalize_zero]
  dsimp only
  norm_num [makeBullet]

/-- Claim C2 (amended): when fire is held, the fire-rate interval has
elapsed and the aim target coincides exactly with the player position,
the shot is not suppressed: a zero-velocity bullet is appended at the
player centre, lastShotAtMs is updated to now, and only the player
position is unchanged, because the recoil displacement is zero. -/
theorem claim_C2_amended (now : ℝ) (inp : Input) (p : Player) (bs : List Bullet)
    (hdown : inp.mouseDown = true) (hrate : ¬ (now - p.lastShot < fireRate))
    (hax : inp.mouseX = p.x) (hay : inp.mouseY = p.y) :
    tryShoot now inp p bs = ({ p with lastShot := now }, bs ++ [makeBullet p.x p.y 0 0]) :=
  tryShoot_self_aim now inp p bs hdown hrate hax hay

/-- Input for the C2 witness and counterexample: fire held with the aim
exactly on the resting player position. -/
def inputC2 : Input := ⟨false, false, false, false, 320, 320, true, ⟨0, 0, 0, 0⟩⟩

/-- Witness for C2: the amended behaviour at the concrete base player. -/
theorem claim_C2_witness :
    tryShoot 1000 inputC2 baseWorld.player [] =
      ({ baseWorld.player with lastShot := 1000 }, [] ++ [makeBullet 320 320 0 0]) :=
  claim_C2_amended 1000 inputC2 baseWorld.player []
    rfl (by norm_num [baseWorld, fireRate]) rfl rfl

theorem shootPhase_C2 :
    shootPhase baseWorld 0 1000 inputC2 =
      ({ baseWorld.player with lastShot := 1000 }, [makeBullet 320 320 0 0]) := by
  unfold shootPhase
  rw [movePlayer_idle _ _ _ _ _ rfl rfl rfl rfl
    (by norm_num [baseWorld]) (by norm_num [baseWorld])
    (by norm_num [baseWorld]) (by norm_num [baseWorld])]
  exact tryShoot_self_aim 1000 inputC2 baseWorld.player [] rfl
    (by norm_num [baseWorld, fireRate]) rfl rfl

theorem update_player_lastShot (w : World) (dt now : ℝ) (inp : Input) :
    (update w dt now inp).player.lastShot = (shootPhase w dt now inp).1.lastShot := by
  simp only [update]
  split_ifs <;> rfl

theorem bullets_C2 :
    (update baseWorld 0 1000 inputC2).bullets = [makeBullet 320 320 0 0] := by
  rw [update_bullets_eq]
  unfold zombiePhase
  dsimp only
  rw [show baseWorld.zombies = [] from rfl, runZombies_nil]
  show bulletPhase baseWorld 0 1000 inputC2 = [makeBullet 320 320 0 0]
  unfold bulletPhase
  rw [show (shootPhase baseWorld 0 1000 inputC2).2 = [makeBullet 320 320 0 0] by
    rw [shootPhase_C2]]
  unfold updateBullets
  rw [map_stepBullet_zero]
  simp only [List.filter, decide_eq_true_eq]
  norm_num [bulletGone, makeBullet, baseWorld, bulletRadius]

/-- Counterexample to C2 as stated: with fire held, the interval
elapsed, and the aim exactly on the player, the frame is not a no-op —
a bullet is added and lastShotAtMs is updated. -/
theorem claim_C2_counterexample :
    (update baseWorld 0 1000 inputC2).bullets = [makeBullet 320 320 0 0] ∧
      (update baseWorld 0 1000 inputC2).player.lastShot = 1000 ∧
      baseWorld.bullets = [] ∧ baseWorld.player.lastShot = 0 := by
  refine ⟨bullets_C2, ?_, rfl, rfl⟩
  rw [update_player_lastShot, shootPhase_C2]

/-! ### Claim C5 -/

/-- Claim C5 (amended): when a zombie survives the player-contact check
and overlaps one or more bullets, the overlapping bullet at the highest
index is removed together with the zombie — the inner scan runs from
the last index downwards, so the highest-index overlapping bullet is
the first one met — the score increases by exactly 10, and the scan
stops, so the zombie is removed at most once in the frame. -/
theorem claim_C5_amended (px py pr dt : ℝ) (z : Zombie) (s : ZState)
    (l r : List Bullet) (b : Bullet)
    (hnc : ¬ zombieContact px py pr dt z)
    (hbs : s.bullets = l ++ b :: r)
    (hhit : bulletHits (moveZombie px py dt z) b)
    (hmiss : ∀ b' ∈ r, ¬ bulletHits (moveZombie px py dt z) b') :
    zombieStep px py pr dt z s = { s with bullets := l ++ r, score := s.score + 10 } := by
  have hr : removeLastHit (moveZombie px py dt z) s.bullets = some (l ++ r) := by
    rw [hbs]
    exact removeLastHit_spec _ _ _ hhit hmiss l
  exact zombieStep_kill s hnc hr

/-- Concrete zombie away from the player, used by C5. -/
def zombieC5 : Zombie := ⟨100, 0, 18, 50, 30⟩

/-- Lower-index bullet overlapping zombieC5. -/
def bulletA : Bullet := ⟨100, 0, 0, 0, 4, 1800⟩

/-- Higher-index bullet overlapping zombieC5. -/
def bulletB : Bullet := ⟨102, 0, 0, 0, 4, 1800⟩

/-- Witness for C5: with two overlapping bullets, the one at the higher
index is removed and the score rises by exactly 10. -/
theorem claim_C5_witness :
    zombieStep 0 0 16 0 zombieC5 ⟨[], [bulletA, bulletB], 50, 7, true⟩ =
      { (⟨[], [bulletA, bulletB], 50, 7, true⟩ : ZState) with
        bullets := [bulletA] ++ [], score := 7 + 10 } :=
  claim_C5_amended 0 0 16 0 zombieC5 ⟨[], [bulletA, bulletB], 50, 7, true⟩
    [bulletA] [] bulletB
    (by rw [zombieContact_zero]; norm_num [dist2, zombieC5, zombieRadius])
    rfl
    (by rw [moveZombie_zero]; norm_num [bulletHits, dist2, zombieC5, bulletB])
    (by intro b' hb'; exact absurd hb' (List.not_mem_nil b'))

/-- World for the C5 counterexample: the player far away, one zombie
overlapped by both bullets. -/
def worldC5 : World :=
  { baseWorld with
    player := ⟨100, 100, 0, 0, 16, 100, 0⟩,
    bullets := [⟨320, 320, 0, 0, 4, 1800⟩, ⟨322, 320, 0, 0, 4, 1800⟩],
    zombies := [⟨320, 320, 18, 50, 30⟩] }

theorem shootPhase_worldC5 :
    shootPhase worldC5 0 0 baseInput = (worldC5.player, worldC5.bullets) := by
  unfold shootPhase
  rw [movePlayer_idle _ _ _ _ _ rfl rfl rfl rfl
    (by norm_num [worldC5, baseWorld]) (by norm_num [worldC5, baseWorld])
    (by norm_num [worldC5, baseWorld]) (by norm_num [worldC5, baseWorld])]
  exact tryShoot_idle _ _ _ _ rfl

theorem bulletPhase_worldC5 : bulletPhase worldC5 0 0 baseInput = worldC5.bullets := by
  unfold bulletPhase
  rw [show (shootPhase worldC5 0 0 baseInput).2 = worldC5.bullets by rw [shootPhase_worldC5]]
  unfold updateBullets
  rw [map_stepBullet_zero]
  simp only [List.filter, decide_eq_true_eq]
  norm_num [bulletGone, worldC5, baseWorld]

theorem zombiePhase_worldC5 :
    zombiePhase worldC5 0 0 baseInput =
      ⟨[], [⟨320, 320, 0, 0, 4, 1800⟩], 100, 10, true⟩ := by
  unfold zombiePhase
  dsimp only
  rw [show (shootPhase worldC5 0 0 baseInput).1 = worldC5.player by rw [shootPhase_worldC5]]
  rw [bulletPhase_worldC5]
  show runZombies 100 100 16 0 [⟨320, 320, 18, 50, 30⟩]
    ⟨[], [⟨320, 320, 0, 0, 4, 1800⟩, ⟨322, 320, 0, 0, 4, 1800⟩], 100, 0, true⟩ = _
  rw [runZombies_cons, runZombies_nil]
  have hnc : ¬ zombieContact (100 : ℝ) 100 16 0 ⟨320, 320, 18, 50, 30⟩ := by
    rw [zombieContact_zero]
    norm_num [dist2]
  have hr : removeLastHit (moveZombie (100 : ℝ) 100 0 ⟨320, 320, 18, 50, 30⟩)
      [⟨320, 320, 0, 0, 4, 1800⟩, ⟨322, 320, 0, 0, 4, 1800⟩] =
        some [⟨320, 320, 0, 0, 4, 1800⟩] := by
    rw [moveZombie_zero]
    have := removeLastHit_spec (⟨320, 320, 18, 50, 30⟩ : Zombie)
      (⟨322, 320, 0, 0, 4, 1800⟩ : Bullet) []
      (by norm_num [bulletHits, dist2])
      (by intro b' hb'; exact absurd hb' (List.not_mem_nil b'))
      [⟨320, 320, 0, 0, 4, 1800⟩]
    simpa using this
  rw [zombieStep_kill _ hnc hr]

/-- Counterexample to C5 as stated: both bullets overlap the zombie,
and the surviving bullet is the one at index 0 — the code removed the
highest-index bullet, not the lowest-index one. -/
theorem claim_C5_counterexample :
    (update worldC5 0 0 baseInput).bullets = [⟨320, 320, 0, 0, 4, 1800⟩] ∧
      (update worldC5 0 0 baseInput).zombies = [] ∧
      (update worldC5 0 0 baseInput).score = 10 ∧
      worldC5.bullets = [⟨320, 320, 0, 0, 4, 1800⟩, ⟨322, 320, 0, 0, 4, 1800⟩] := by
  have hns : ¬ spawnCond worldC5 0 0 baseInput := by
    intro hc
    exact absurd hc.1 (by norm_num [worldC5, baseWorld])
  refine ⟨?_, ?_, ?_, rfl⟩
  · rw [update_bullets_eq, zombiePhase_worldC5]
  · rw [(update_no_spawn _ _ _ _ hns).1, zombiePhase_worldC5]
  · rw [update_score_eq, zombiePhase_worldC5]

/-! ### Claim C3 -/

theorem movePlayer_bounds (aw ah : ℝ) (inp : Input) (dt : ℝ) (p : Player)
    (hw : p.radius + 6 ≤ aw - p.radius - 6) (hh : p.radius + 6 ≤ ah - p.radius - 6) :
    (p.radius + 6 ≤ (movePlayer aw ah inp dt p).x ∧
      (movePlayer aw ah inp dt p).x ≤ aw - p.radius - 6) ∧
    (p.radius + 6 ≤ (movePlayer aw ah inp dt p).y ∧
      (movePlayer aw ah inp dt p).y ≤ ah - p.radius - 6) := by
  unfold movePlayer
  dsimp only
  exact ⟨⟨le_clamp _ _ _, clamp_le _ hw⟩, ⟨le_clamp _ _ _, clamp_le _ hh⟩⟩

theorem tryShoot_recoil_bounds (now : ℝ) (inp : Input) (p : Player) (bs : List Bullet) :
    |((tryShoot now inp p bs).1).x - p.x| ≤ 4 ∧ |((tryShoot now inp p bs).1).y - p.y| ≤ 4 := by
  unfold tryShoot
  dsimp only
  split_ifs with h1 h2
  · simp
  · simp
  · constructor
    · have h := normalize_x_abs_le (inp.mouseX - p.x) (inp.mouseY - p.y)
      have e : p.x - (normalize (inp.mouseX - p.x) (inp.mouseY - p.y)).x * 4 - p.x =
          -((normalize (inp.mouseX - p.x) (inp.mouseY - p.y)).x * 4) := by ring
      rw [e, abs_neg, abs_mul, abs_of_nonneg (by norm_num : (0:ℝ) ≤ 4)]
      nlinarith [abs_nonneg (normalize (inp.mouseX - p.x) (inp.mouseY - p.y)).x]
    · have h := normalize_y_abs_le (inp.mouseX - p.x) (inp.mouseY - p.y)
      have e : p.y - (normalize (inp.mouseX - p.x) (inp.mouseY - p.y)).y * 4 - p.y =
          -((normalize (inp.mouseX - p.x) (inp.mouseY - p.y)).y * 4) := by ring
      rw [e, abs_neg, abs_mul, abs_of_nonneg (by norm_num : (0:ℝ) ≤ 4)]
      nlinarith [abs_nonneg (normalize (inp.mouseX - p.x) (inp.mouseY - p.y)).y]

/-- Claim C3 (amended): after a frame the player always lies within the
clamp band [radius+6, arena-radius-6] widened by the recoil magnitude 4
on each side (assuming the band is nonempty); the exact band of the
claim does not survive a firing frame, because the recoil displacement
is applied after the clamp and is not re-clamped. -/
theorem claim_C3_amended (w : World) (dt now : ℝ) (inp : Input)
    (hw : w.player.radius + 6 ≤ w.arenaW - w.player.radius - 6)
    (hh : w.player.radius + 6 ≤ w.arenaH - w.player.radius - 6) :
    w.player.radius + 6 - 4 ≤ (update w dt now inp).player.x ∧
      (update w dt now inp).player.x ≤ w.arenaW - w.player.radius - 6 + 4 ∧
      w.player.radius + 6 - 4 ≤ (update w dt now inp).player.y ∧
      (update w dt now inp).player.y ≤ w.arenaH - w.player.radius - 6 + 4 := by
  rw [update_player_x, update_player_y]
  unfold shootPhase
  obtain ⟨⟨hb1, hb2⟩, hb3, hb4⟩ := movePlayer_bounds w.arenaW w.arenaH inp dt w.player hw hh
  obtain ⟨hr1, hr2⟩ :=
    tryShoot_recoil_bounds now inp (movePlayer w.arenaW w.arenaH inp dt w.player) w.bullets
  rw [abs_le] at hr1 hr2
  exact ⟨by linarith [hr1.1], by linarith [hr1.2], by linarith [hr2.1], by linarith [hr2.2]⟩

/-- Witness for C3: the widened bounds at the concrete base world. -/
theorem claim_C3_witness :
    baseWorld.player.radius + 6 - 4 ≤ (update baseWorld 0 0 baseInput).player.x ∧
      (update baseWorld 0 0 baseInput).player.x ≤
        baseWorld.arenaW - baseWorld.player.radius - 6 + 4 ∧
      baseWorld.player.radius + 6 - 4 ≤ (update baseWorld 0 0 baseInput).player.y ∧
      (update baseWorld 0 0 baseInput).player.y ≤
        baseWorld.arenaH - baseWorld.player.radius - 6 + 4 :=
  claim_C3_amended baseWorld 0 0 baseInput
    (by norm_num [baseWorld]) (by norm_num [baseWorld])

/-- Player for the C3 counterexample: resting on the left clamp bound. -/
def playerC3 : Player := ⟨22, 320, 0, 0, 16, 100, 0⟩

/-- Input for the C3 counterexample: fire held, aiming just to the
right of the player. -/
def inputC3 : Input := ⟨false, false, false, false, 23, 320, true, ⟨0, 0, 0, 0⟩⟩

/-- World for the C3 counterexample. -/
def worldC3 : World := { baseWorld with player := playerC3 }

theorem tryShoot_fire (now : ℝ) (inp : Input) (p : Player) (bs : List Bullet)
    (hdown : inp.mouseDown = true) (hrate : ¬ (now - p.lastShot < fireRate)) :
    tryShoot now inp p bs =
      ({ p with
          x := p.x - (normalize (inp.mouseX - p.x) (inp.mouseY - p.y)).x * 4,
          y := p.y - (normalize (inp.mouseX - p.x) (inp.mouseY - p.y)).y * 4,
          lastShot := now },
        bs ++ [makeBullet
          (p.x + (normalize (inp.mouseX - p.x) (inp.mouseY - p.y)).x * (p.radius + 8))
          (p.y + (normalize (inp.mouseX - p.x) (inp.mouseY - p.y)).y * (p.radius + 8))
          ((normalize (inp.mouseX - p.x) (inp.mouseY - p.y)).x * bulletSpeed)
          ((normalize (inp.mouseX - p.x) (inp.mouseY - p.y)).y * bulletSpeed)]) := by
  unfold tryShoot
  rw [hdown, if_neg (by norm_num), if_neg hrate]

/-- Counterexample to C3 as stated: firing to the right from the left
clamp bound leaves the player at x = 18, strictly below radius+6 = 22,
so the claimed band does not hold on firing frames. -/
theorem claim_C3_counterexample :
    (update worldC3 0 1000 inputC3).player.x = 18 ∧
      (18 : ℝ) < worldC3.player.radius + 6 := by
  constructor
  · rw [update_player_x]
    unfold shootPhase
    rw [movePlayer_idle _ _ _ _ _ rfl rfl rfl rfl
      (by norm_num [worldC3, playerC3, baseWorld]) (by norm_num [worldC3, playerC3, baseWorld])
      (by norm_num [worldC3, playerC3, baseWorld]) (by norm_num [worldC3, playerC3, baseWorld])]
    rw [tryShoot_fire _ _ _ _ rfl (by norm_num [worldC3, playerC3, baseWorld, fireRate])]
    dsimp only
    rw [show inputC3.mouseX - worldC3.player.x = (1 : ℝ) by
        norm_num [worldC3, playerC3, baseWorld, inputC3],
      show inputC3.mouseY - worldC3.player.y = (0 : ℝ) by
        norm_num [worldC3, playerC3, baseWorld, inputC3],
      normalize_pos_x one_pos]
    norm_num [worldC3, playerC3, baseWorld]
  · norm_num [worldC3, playerC3, baseWorld]

/-! ### Claim C4 -/

theorem map_moveZombie_zero (px py : ℝ) (zs : List Zombie) :
    zs.map (moveZombie px py 0) = zs := by
  induction zs with
  | nil => rfl
  | cons z t ih => simp [moveZombie_zero, ih]

theorem movePlayer_zero (aw ah : ℝ) (inp : Input) (p : Player)
    (hx1 : p.radius + 6 ≤ p.x) (hx2 : p.x ≤ aw - p.radius - 6)
    (hy1 : p.radius + 6 ≤ p.y) (hy2 : p.y ≤ ah - p.radius - 6) :
    movePlayer aw ah inp 0 p = p := by
  unfold movePlayer
  dsimp only
  split_ifs <;> ext <;>
    simp [mul_zero, add_zero, clamp_of_mem hx1 hx2, clamp_of_mem hy1 hy2]

/-- Claim C4 (amended): an advance with dtSeconds = 0 is the identity
only on worlds with no pending frame event: the player inside the clamp
band, no shot firing this frame, no bullet already expired or out of
bounds, no zombie in contact with the player, no bullet overlapping a
zombie, and the spawn condition not holding.  Without these conditions
a dt = 0 frame can still clamp the player, fire, deal contact damage,
kill zombies and spawn. -/
theorem claim_C4_amended (w : World) (now : ℝ) (inp : Input)
    (hx1 : w.player.radius + 6 ≤ w.player.x) (hx2 : w.player.x ≤ w.arenaW - w.player.radius - 6)
    (hy1 : w.player.radius + 6 ≤ w.player.y) (hy2 : w.player.y ≤ w.arenaH - w.player.radius - 6)
    (hfire : inp.mouseDown = false ∨ now - w.player.lastShot < fireRate)
    (hbul : ∀ b ∈ w.bullets, ¬ bulletGone w.arenaW w.arenaH b)
    (hcon : ∀ z ∈ w.zombies, ¬ zombieContact w.player.x w.player.y w.player.radius 0 z)
    (hhit : ∀ z ∈ w.zombies, ∀ b ∈ w.bullets, ¬ bulletHits z b)
    (hspawn : ¬ spawnCond w 0 now inp) :
    update w 0 now inp = w := by
  have hmp : movePlayer w.arenaW w.arenaH inp 0 w.player = w.player :=
    movePlayer_zero w.arenaW w.arenaH inp w.player hx1 hx2 hy1 hy2
  have htr : tryShoot now inp w.player w.bullets = (w.player, w.bullets) := by
    rcases hfire with h | h
    · exact tryShoot_idle now inp w.player w.bullets h
    · exact tryShoot_cooling now inp w.player w.bullets h
  have hsp : shootPhase w 0 now inp = (w.player, w.bullets) := by
    unfold shootPhase
    rw [hmp, htr]
  have hbp : bulletPhase w 0 now inp = w.bullets := by
    unfold bulletPhase
    rw [show (shootPhase w 0 now inp).2 = w.bullets by rw [hsp]]
    unfold updateBullets
    rw [map_stepBullet_zero]
    refine List.filter_eq_self.mpr ?_
    intro b hb
    simp only [decide_eq_true_eq]
    exact hbul b hb
  have hzp : zombiePhase w 0 now inp = ⟨w.zombies, w.bullets, w.player.hp, w.score, w.running⟩ := by
    unfold zombiePhase
    dsimp only
    rw [show (shootPhase w 0 now inp).1 = w.player by rw [hsp], hbp]
    rw [runZombies_keep_all _ _ _ _ _ _ hcon
      (fun z hz => by
        rw [moveZombie_zero]
        exact removeLastHit_none z w.bullets (hhit z hz))]
    rw [map_moveZombie_zero]
    ext <;> simp
  simp only [update]
  rw [if_neg hspawn, hzp]
  rw [show (shootPhase w 0 now inp).1 = w.player by rw [hsp]]
  ext <;> simp

/-- Witness for C4: the quiescent base world is a fixed point of a
dt = 0 advance. -/
theorem claim_C4_witness : update baseWorld 0 0 baseInput = baseWorld :=
  claim_C4_amended baseWorld 0 baseInput
    (by norm_num [baseWorld]) (by norm_num [baseWorld])
    (by norm_num [baseWorld]) (by norm_num [baseWorld])
    (Or.inl rfl)
    (by simp [baseWorld])
    (by simp [baseWorld])
    (by simp [baseWorld])
    (fun hc => absurd hc.1 (by norm_num [baseWorld]))

/-- World for the C4 counterexample: one zombie exactly on the player. -/
def worldC4 : World := { baseWorld with zombies := [⟨320, 320, 18, 50, 30⟩] }

theorem shootPhase_worldC4 : shootPhase worldC4 0 0 baseInput = (worldC4.player, []) := by
  unfold shootPhase
  rw [movePlayer_idle _ _ _ _ _ rfl rfl rfl rfl
    (by norm_num [worldC4, baseWorld]) (by norm_num [worldC4, baseWorld])
    (by norm_num [worldC4, baseWorld]) (by norm_num [worldC4, baseWorld])]
  exact tryShoot_idle _ _ _ _ rfl

theorem frameContacts_worldC4 : frameContacts worldC4 0 0 baseInput = 1 := by
  unfold frameContacts
  dsimp only
  rw [show (shootPhase worldC4 0 0 baseInput).1 = worldC4.player by rw [shootPhase_worldC4]]
  show contactCount 320 320 16 0 [⟨320, 320, 18, 50, 30⟩] = 1
  rw [contactCount_cons, contactCount_nil, if_pos (by rw [zombieContact_zero]; norm_num [dist2])]

/-- Counterexample to C4 as stated: a dt = 0 advance on a world with a
zombie in contact is not the identity — the player hp drops by 20. -/
theorem claim_C4_counterexample : update worldC4 0 0 baseInput ≠ worldC4 := by
  intro h
  have h2 := congrArg (fun v => v.player.hp) h
  dsimp only at h2
  rw [update_hp, frameContacts_worldC4] at h2
  norm_num [worldC4, baseWorld, damageOnTouch] at h2

/-! ### Claim C1 -/

/-- Claim C1 (amended): when a contact drops the player hp to 0 or
below, running is cleared immediately, but the per-zombie pass still
runs to completion — every contact of the frame is applied, so the
final hp is the starting hp minus damage times the number of contacts
of the whole pass, and running ends false exactly when some contact
happened and that final hp is at or below zero; the round only freezes
from the next frame on, because advance is a no-op once running is
false. -/
theorem claim_C1_amended (w : World) (dt now : ℝ) (inp : Input) :
    (update w dt now inp).player.hp =
        w.player.hp - damageOnTouch * (frameContacts w dt now inp : ℤ) ∧
      ((update w dt now inp).running = false ↔
        (w.running = false ∨ (0 < frameContacts w dt now inp ∧
          w.player.hp - damageOnTouch * (frameContacts w dt now inp : ℤ) ≤ 0))) ∧
      ∀ (w' : World) (dt' now' : ℝ) (inp' : Input), w'.running = false →
        advance w' dt' now' inp' = w' :=
  ⟨update_hp w dt now inp, update_running_iff w dt now inp,
    fun w' dt' now' inp' h => advance_noop w' dt' now' inp' h⟩

/-- Dead world used by the C1 witness. -/
def deadWorld : World := { baseWorld with running := false }

/-- Witness for C1: a world whose running flag is already false is left
untouched by advance. -/
theorem claim_C1_witness : advance deadWorld 0 0 baseInput = deadWorld :=
  (claim_C1_amended baseWorld 0 0 baseInput).2.2 deadWorld 0 0 baseInput rfl

/-- World for the C1 counterexample: hp 20 and two zombies both in
contact; the first processed contact kills the player. -/
def worldC1 : World :=
  { baseWorld with
    player := ⟨320, 320, 0, 0, 16, 20, 0⟩,
    zombies := [⟨320, 320, 18, 50, 30⟩, ⟨320, 320, 18, 50, 30⟩] }

theorem shootPhase_worldC1 : shootPhase worldC1 0 0 baseInput = (worldC1.player, []) := by
  unfold shootPhase
  rw [movePlayer_idle _ _ _ _ _ rfl rfl rfl rfl
    (by norm_num [worldC1, baseWorld]) (by norm_num [worldC1, baseWorld])
    (by norm_num [worldC1, baseWorld]) (by norm_num [worldC1, baseWorld])]
  exact tryShoot_idle _ _ _ _ rfl

theorem bulletPhase_worldC1 : bulletPhase worldC1 0 0 baseInput = [] := by
  unfold bulletPhase
  rw [show (shootPhase worldC1 0 0 baseInput).2 = [] by rw [shootPhase_worldC1]]
  rfl

theorem zombiePhase_worldC1 :
    zombiePhase worldC1 0 0 baseInput = ⟨[], [], -20, 0, false⟩ := by
  have hc : zombieContact (320 : ℝ) 320 16 0 ⟨320, 320, 18, 50, 30⟩ := by
    rw [zombieContact_zero]
    norm_num [dist2]
  have e1 : zombieStep (320 : ℝ) 320 16 0 ⟨320, 320, 18, 50, 30⟩ ⟨[], [], 20, 0, true⟩ =
      ⟨[], [], 0, 0, false⟩ := by
    rw [zombieStep_contact _ hc]
    ext <;> simp [damageOnTouch]
  have e2 : zombieStep (320 : ℝ) 320 16 0 ⟨320, 320, 18, 50, 30⟩ ⟨[], [], 0, 0, false⟩ =
      ⟨[], [], -20, 0, false⟩ := by
    rw [zombieStep_contact _ hc]
    ext <;> simp [damageOnTouch]
  unfold zombiePhase
  dsimp only
  rw [show (shootPhase worldC1 0 0 baseInput).1 = worldC1.player by rw [shootPhase_worldC1],
    bulletPhase_worldC1]
  show runZombies 320 320 16 0 [⟨320, 320, 18, 50, 30⟩, ⟨320, 320, 18, 50, 30⟩]
    ⟨[], [], 20, 0, true⟩ = _
  rw [runZombies_cons, runZombies_cons, runZombies_nil, e1, e2]

/-- Counterexample to C1 as stated: the second zombie of the pass is
processed after the killing contact — it deals damage (hp ends at -20,
not 0) and is removed (the zombie list ends empty), while the claim
says zombies later in iteration order deal no damage and are not
removed. -/
theorem claim_C1_counterexample :
    (update worldC1 0 0 baseInput).running = false ∧
      (update worldC1 0 0 baseInput).player.hp = -20 ∧
      (update worldC1 0 0 baseInput).zombies = [] ∧
      worldC1.player.hp = 20 ∧ worldC1.zombies.length = 2 := by
  have hns : ¬ spawnCond worldC1 0 0 baseInput := by
    intro hc
    exact absurd hc.1 (by norm_num [worldC1, baseWorld])
  refine ⟨?_, ?_, ?_, rfl, rfl⟩
  · rw [update_running_eq, zombiePhase_worldC1]
  · rw [update_player_hp, zombiePhase_worldC1]
  · rw [(update_no_spawn _ _ _ _ hns).1, zombiePhase_worldC1]

/-! ### Claim C9 -/

theorem stepFrame_contact_step (w : World) (f : Frame) (H : ℤ)
    (hr : w.running = true) (hh : w.player.hp = H)
    (hc : frameContacts w f.dt f.now f.inp = 1) :
    (stepFrame w f).player.hp = H - damageOnTouch ∧
      ((stepFrame w f).running = if H - damageOnTouch ≤ 0 then false else true) := by
  have ha : stepFrame w f = update w f.dt f.now f.inp := advance_of_running _ _ _ _ hr
  rw [ha]
  constructor
  · rw [update_hp, hc, hh]
    push_cast
    ring
  · by_cases hle : H - damageOnTouch ≤ 0
    · rw [if_pos hle]
      refine (update_running_iff w f.dt f.now f.inp).mpr ?_
      right
      rw [hc, hh]
      refine ⟨one_pos, ?_⟩
      push_cast
      linarith
    · rw [if_neg hle]
      rcases Bool.eq_false_or_eq_true ((update w f.dt f.now f.inp).running) with hb | hb
      · exact hb
      · exfalso
        rcases (update_running_iff w f.dt f.now f.inp).mp hb with h0 | ⟨_, hle2⟩
        · rw [hr] at h0
          exact absurd h0 (by simp)
        · rw [hc, hh] at hle2
          push_cast at hle2
          rw [mul_one] at hle2
          exact hle hle2

/-- Claim C9: starting from hp 100 with a running round, five frames
each applying exactly one zombie-player contact of 20 damage leave the
hp at 0 (so ≤ 0) and the running flag false, and every further advance
call is a complete no-op on the world. -/
theorem claim_C9 (w0 : World) (f1 f2 f3 f4 f5 : Frame)
    (hhp : w0.player.hp = 100) (hrun : w0.running = true)
    (h1 : frameContacts w0 f1.dt f1.now f1.inp = 1)
    (h2 : frameContacts (stepFrame w0 f1) f2.dt f2.now f2.inp = 1)
    (h3 : frameContacts (stepFrame (stepFrame w0 f1) f2) f3.dt f3.now f3.inp = 1)
    (h4 : frameContacts (stepFrame (stepFrame (stepFrame w0 f1) f2) f3) f4.dt f4.now f4.inp = 1)
    (h5 : frameContacts (stepFrame (stepFrame (stepFrame (stepFrame w0 f1) f2) f3) f4)
        f5.dt f5.now f5.inp = 1) :
    (stepFrame (stepFrame (stepFrame (stepFrame (stepFrame w0 f1) f2) f3) f4) f5).player.hp
        ≤ 0 ∧
      (stepFrame (stepFrame (stepFrame (stepFrame (stepFrame w0 f1) f2) f3) f4) f5).running
        = false ∧
      ∀ g : Frame,
        stepFrame (stepFrame (stepFrame (stepFrame (stepFrame (stepFrame w0 f1) f2) f3) f4) f5)
            g =
          stepFrame (stepFrame (stepFrame (stepFrame (stepFrame w0 f1) f2) f3) f4) f5 := by
  obtain ⟨e1h, e1r⟩ := stepFrame_contact_step w0 f1 100 hrun hhp h1
  have e1h' : (stepFrame w0 f1).player.hp = 80 := by rw [e1h]; norm_num [damageOnTouch]
  have e1r' : (stepFrame w0 f1).running = true := by rw [e1r]; norm_num [damageOnTouch]
  obtain ⟨e2h, e2r⟩ := stepFrame_contact_step _ f2 80 e1r' e1h' h2
  have e2h' : (stepFrame (stepFrame w0 f1) f2).player.hp = 60 := by
    rw [e2h]; norm_num [damageOnTouch]
  have e2r' : (stepFrame (stepFrame w0 f1) f2).running = true := by
    rw [e2r]; norm_num [damageOnTouch]
  obtain ⟨e3h, e3r⟩ := stepFrame_contact_step _ f3 60 e2r' e2h' h3
  have e3h' : (stepFrame (stepFrame (stepFrame w0 f1) f2) f3).player.hp = 40 := by
    rw [e3h]; norm_num [damageOnTouch]
  have e3r' : (stepFrame (stepFrame (stepFrame w0 f1) f2) f3).running = true := by
    rw [e3r]; norm_num [damageOnTouch]
  obtain ⟨e4h, e4r⟩ := stepFrame_contact_step _ f4 40 e3r' e3h' h4
  have e4h' :
      (stepFrame (stepFrame (stepFrame (stepFrame w0 f1) f2) f3) f4).player.hp = 20 := by
    rw [e4h]; norm_num [damageOnTouch]
  have e4r' :
      (stepFrame (stepFrame (stepFrame (stepFrame w0 f1) f2) f3) f4).running = true := by
    rw [e4r]; norm_num [damageOnTouch]
  obtain ⟨e5h, e5r⟩ := stepFrame_contact_step _ f5 20 e4r' e4h' h5
  have e5h' :
      (stepFrame (stepFrame (stepFrame (stepFrame (stepFrame w0 f1) f2) f3) f4) f5).player.hp
        = 0 := by
    rw [e5h]; norm_num [damageOnTouch]
  have e5r' :
      (stepFrame (stepFrame (stepFrame (stepFrame (stepFrame w0 f1) f2) f3) f4) f5).running
        = false := by
    rw [e5r]; norm_num [damageOnTouch]
  exact ⟨e5h'.le, e5r', fun g => advance_noop _ g.dt g.now g.inp e5r'⟩

/-- Zombie on the player horizontal line, offset d to the right, with
chase speed 5 (so it advances exactly 5 px per 1-second frame of the
witness scenario). -/
def zAt (d : ℝ) : Zombie := ⟨320 + d, 320, 18, 5, 30⟩

/-- Scenario worlds of the C9 witness: player resting in the middle of
a 640 x 640 arena, no bullets, a very large spawn interval so no spawn
interferes. -/
def scW (zs : List Zombie) (hp : ℤ) (t : ℝ) (r : Bool) : World :=
  ⟨640, 640, ⟨320, 320, 0, 0, 16, hp, 0⟩, [], zs, 0, r, t, 100000, t⟩

/-- Frame of the C9 witness: one second, idle input. -/
def scFrame : Frame := ⟨1, 0, baseInput⟩

theorem moveZombie_line9 (d : ℝ) (hd : 0 < d) :
    moveZombie 320 320 1 (zAt d) = zAt (d - 5) := by
  unfold moveZombie zAt
  dsimp only
  rw [show (320 : ℝ) - (320 + d) = -d by ring, show (320 : ℝ) - 320 = 0 by ring,
    normalize_neg_x hd]
  ext <;> dsimp only <;> ring

theorem zombieContact_far9 (d : ℝ) (hd : 0 < d) (hfar : 34 ≤ d - 5) :
    ¬ zombieContact 320 320 16 1 (zAt d) := by
  unfold zombieContact
  rw [moveZombie_line9 d hd]
  unfold zAt dist2
  dsimp only
  intro h
  nlinarith [sq_nonneg (d - 5 - 34)]

theorem zombieContact_near9 (d : ℝ) (hd : 0 < d) (h1 : -34 < d - 5) (h2 : d - 5 < 34) :
    zombieContact 320 320 16 1 (zAt d) := by
  unfold zombieContact
  rw [moveZombie_line9 d hd]
  unfold zAt dist2
  dsimp only
  nlinarith [mul_pos (by linarith : (0 : ℝ) < 34 - (d - 5))
    (by linarith : (0 : ℝ) < 34 + (d - 5))]

theorem zstep_far9 (d : ℝ) (hd : 0 < d) (hfar : 34 ≤ d - 5) (s : ZState)
    (hb : s.bullets = []) :
    zombieStep 320 320 16 1 (zAt d) s = { s with zombies := zAt (d - 5) :: s.zombies } := by
  have hrm : removeLastHit (moveZombie 320 320 1 (zAt d)) s.bullets = none := by
    rw [hb]; rfl
  rw [zombieStep_keep s (zombieContact_far9 d hd hfar) hrm, moveZombie_line9 d hd]

theorem zstep_near9 (d : ℝ) (hd : 0 < d) (h1 : -34 < d - 5) (h2 : d - 5 < 34) (s : ZState) :
    zombieStep 320 320 16 1 (zAt d) s =
      { s with
        hp := s.hp - damageOnTouch,
        running := if s.hp - damageOnTouch ≤ 0 then false else s.running } :=
  zombieStep_contact s (zombieContact_near9 d hd h1 h2)

theorem scrun1 :
    runZombies 320 320 16 1 [zAt 36, zAt 41, zAt 46, zAt 51, zAt 56] ⟨[], [], 100, 0, true⟩ =
      ⟨[zAt 36, zAt 41, zAt 46, zAt 51], [], 80, 0, true⟩ := by
  rw [runZombies_cons, runZombies_cons, runZombies_cons, runZombies_cons, runZombies_cons,
    runZombies_nil]
  rw [zstep_far9 56 (by norm_num) (by norm_num) ⟨[], [], 100, 0, true⟩ rfl]
  norm_num
  rw [zstep_far9 51 (by norm_num) (by norm_num) ⟨[zAt 51], [], 100, 0, true⟩ rfl]
  norm_num
  rw [zstep_far9 46 (by norm_num) (by norm_num) ⟨[zAt 46, zAt 51], [], 100, 0, true⟩ rfl]
  norm_num
  rw [zstep_far9 41 (by norm_num) (by norm_num)
    ⟨[zAt 41, zAt 46, zAt 51], [], 100, 0, true⟩ rfl]
  norm_num
  rw [zstep_near9 36 (by norm_num) (by norm_num) (by norm_num)]
  ext <;> norm_num [damageOnTouch]

theorem scrun2 :
    runZombies 320 320 16 1 [zAt 36, zAt 41, zAt 46, zAt 51] ⟨[], [], 80, 0, true⟩ =
      ⟨[zAt 36, zAt 41, zAt 46], [], 60, 0, true⟩ := by
  rw [runZombies_cons, runZombies_cons, runZombies_cons, runZombies_cons, runZombies_nil]
  rw [zstep_far9 51 (by norm_num) (by norm_num) ⟨[], [], 80, 0, true⟩ rfl]
  norm_num
  rw [zstep_far9 46 (by norm_num) (by norm_num) ⟨[zAt 46], [], 80, 0, true⟩ rfl]
  norm_num
  rw [zstep_far9 41 (by norm_num) (by norm_num) ⟨[zAt 41, zAt 46], [], 80, 0, true⟩ rfl]
  norm_num
  rw [zstep_near9 36 (by norm_num) (by norm_num) (by norm_num)]
  ext <;> norm_num [damageOnTouch]

theorem scrun3 :
    runZombies 320 320 16 1 [zAt 36, zAt 41, zAt 46] ⟨[], [], 60, 0, true⟩ =
      ⟨[zAt 36, zAt 41], [], 40, 0, true⟩ := by
  rw [runZombies_cons, runZombies_cons, runZombies_cons, runZombies_nil]
  rw [zstep_far9 46 (by norm_num) (by norm_num) ⟨[], [], 60, 0, true⟩ rfl]
  norm_num
  rw [zstep_far9 41 (by norm_num) (by norm_num) ⟨[zAt 41], [], 60, 0, true⟩ rfl]
  norm_num
  rw [zstep_near9 36 (by norm_num) (by norm_num) (by norm_num)]
  ext <;> norm_num [damageOnTouch]

theorem scrun4 :
    runZombies 320 320 16 1 [zAt 36, zAt 41] ⟨[], [], 40, 0, true⟩ =
      ⟨[zAt 36], [], 20, 0, true⟩ := by
  rw [runZombies_cons, runZombies_cons, runZombies_nil]
  rw [zstep_far9 41 (by norm_num) (by norm_num) ⟨[], [], 40, 0, true⟩ rfl]
  norm_num
  rw [zstep_near9 36 (by norm_num) (by norm_num) (by norm_num)]
  ext <;> norm_num [damageOnTouch]

theorem scrun5 :
    runZombies 320 320 16 1 [zAt 36] ⟨[], [], 20, 0, true⟩ = ⟨[], [], 0, 0, false⟩ := by
  rw [runZombies_cons, runZombies_nil]
  rw [zstep_near9 36 (by norm_num) (by norm_num) (by norm_num)]
  ext <;> norm_num [damageOnTouch]

theorem sc_shootPhase (zs : List Zombie) (hp : ℤ) (t : ℝ) (r : Bool) :
    shootPhase (scW zs hp t r) 1 0 baseInput = ((scW zs hp t r).player, []) := by
  unfold shootPhase
  rw [movePlayer_idle _ _ _ _ _ rfl rfl rfl rfl
    (by norm_num [scW]) (by norm_num [scW]) (by norm_num [scW]) (by norm_num [scW])]
  exact tryShoot_idle _ _ _ _ rfl

theorem sc_bulletPhase (zs : List Zombie) (hp : ℤ) (t : ℝ) (r : Bool) :
    bulletPhase (scW zs hp t r) 1 0 baseInput = [] := by
  unfold bulletPhase
  rw [show (shootPhase (scW zs hp t r) 1 0 baseInput).2 = [] by rw [sc_shootPhase]]
  rfl

theorem sc_zombiePhase (zs : List Zombie) (hp : ℤ) (t : ℝ) (r : Bool) :
    zombiePhase (scW zs hp t r) 1 0 baseInput =
      runZombies 320 320 16 1 zs ⟨[], [], hp, 0, r⟩ := by
  unfold zombiePhase
  dsimp only
  rw [show (shootPhase (scW zs hp t r) 1 0 baseInput).1 = (scW zs hp t r).player by
    rw [sc_shootPhase], sc_bulletPhase]
  rfl

theorem sc_frameContacts (zs : List Zombie) (hp : ℤ) (t : ℝ) (r : Bool) :
    frameContacts (scW zs hp t r) 1 0 baseInput = contactCount 320 320 16 1 zs := by
  unfold frameContacts
  dsimp only
  rw [show (shootPhase (scW zs hp t r) 1 0 baseInput).1 = (scW zs hp t r).player by
    rw [sc_shootPhase]]
  rfl

theorem sc_update (zs : List Zombie) (hp : ℤ) (t : ℝ) (ht : t + 1000 ≤ 100000)
    (zs' : List Zombie) (hp' : ℤ) (r' : Bool)
    (hrun : runZombies 320 320 16 1 zs ⟨[], [], hp, 0, true⟩ = ⟨zs', [], hp', 0, r'⟩) :
    update (scW zs hp t true) 1 0 baseInput = scW zs' hp' (t + 1000) r' := by
  have hns : ¬ spawnCond (scW zs hp t true) 1 0 baseInput := by
    intro hc
    have h1 := hc.1
    norm_num [scW] at h1
    linarith
  simp only [update]
  rw [if_neg hns, sc_zombiePhase, hrun]
  rw [show (shootPhase (scW zs hp t true) 1 0 baseInput).1 = (scW zs hp t true).player by
    rw [sc_shootPhase]]
  ext <;> norm_num [scW]

theorem sc_step (zs : List Zombie) (hp : ℤ) (t : ℝ) (ht : t + 1000 ≤ 100000)
    (zs' : List Zombie) (hp' : ℤ) (r' : Bool)
    (hrun : runZombies 320 320 16 1 zs ⟨[], [], hp, 0, true⟩ = ⟨zs', [], hp', 0, r'⟩) :
    stepFrame (scW zs hp t true) scFrame = scW zs' hp' (t + 1000) r' := by
  show advance (scW zs hp t true) 1 0 baseInput = _
  rw [advance_of_running _ _ _ _ rfl]
  exact sc_update zs hp t ht zs' hp' r' hrun

theorem scc1 :
    contactCount 320 320 16 1 [zAt 36, zAt 41, zAt 46, zAt 51, zAt 56] = 1 := by
  rw [contactCount_cons, contactCount_cons, contactCount_cons, contactCount_cons,
    contactCount_cons, contactCount_nil]
  rw [if_pos (zombieContact_near9 36 (by norm_num) (by norm_num) (by norm_num)),
    if_neg (zombieContact_far9 41 (by norm_num) (by norm_num)),
    if_neg (zombieContact_far9 46 (by norm_num) (by norm_num)),
    if_neg (zombieContact_far9 51 (by norm_num) (by norm_num)),
    if_neg (zombieContact_far9 56 (by norm_num) (by norm_num))]

theorem scc2 : contactCount 320 320 16 1 [zAt 36, zAt 41, zAt 46, zAt 51] = 1 := by
  rw [contactCount_cons, contactCount_cons, contactCount_cons, contactCount_cons,
    contactCount_nil]
  rw [if_pos (zombieContact_near9 36 (by norm_num) (by norm_num) (by norm_num)),
    if_neg (zombieContact_far9 41 (by norm_num) (by norm_num)),
    if_neg (zombieContact_far9 46 (by norm_num) (by norm_num)),
    if_neg (zombieContact_far9 51 (by norm_num) (by norm_num))]

theorem scc3 : contactCount 320 320 16 1 [zAt 36, zAt 41, zAt 46] = 1 := by
  rw [contactCount_cons, contactCount_cons, contactCount_cons, contactCount_nil]
  rw [if_pos (zombieContact_near9 36 (by norm_num) (by norm_num) (by norm_num)),
    if_neg (zombieContact_far9 41 (by norm_num) (by norm_num)),
    if_neg (zombieContact_far9 46 (by norm_num) (by norm_num))]

theorem scc4 : contactCount 320 320 16 1 [zAt 36, zAt 41] = 1 := by
  rw [contactCount_cons, contactCount_cons, contactCount_nil]
  rw [if_pos (zombieContact_near9 36 (by norm_num) (by norm_num) (by norm_num)),
    if_neg (zombieContact_far9 41 (by norm_num) (by norm_num))]

theorem scc5 : contactCount 320 320 16 1 [zAt 36] = 1 := by
  rw [contactCount_cons, contactCount_nil]
  rw [if_pos (zombieContact_near9 36 (by norm_num) (by norm_num) (by norm_num))]

/-- Witness for C9: the concrete five-frame scenario — five zombies on
the player line, exactly one reaching contact range each second. -/
theorem claim_C9_witness :
    (stepFrame (stepFrame (stepFrame (stepFrame (stepFrame
        (scW [zAt 36, zAt 41, zAt 46, zAt 51, zAt 56] 100 0 true)
        scFrame) scFrame) scFrame) scFrame) scFrame).player.hp ≤ 0 ∧
      (stepFrame (stepFrame (stepFrame (stepFrame (stepFrame
        (scW [zAt 36, zAt 41, zAt 46, zAt 51, zAt 56] 100 0 true)
        scFrame) scFrame) scFrame) scFrame) scFrame).running = false ∧
      ∀ g : Frame,
        stepFrame (stepFrame (stepFrame (stepFrame (stepFrame (stepFrame
            (scW [zAt 36, zAt 41, zAt 46, zAt 51, zAt 56] 100 0 true)
            scFrame) scFrame) scFrame) scFrame) scFrame) g =
          stepFrame (stepFrame (stepFrame (stepFrame (stepFrame
            (scW [zAt 36, zAt 41, zAt 46, zAt 51, zAt 56] 100 0 true)
            scFrame) scFrame) scFrame) scFrame) scFrame := by
  have e1 : stepFrame (scW [zAt 36, zAt 41, zAt 46, zAt 51, zAt 56] 100 0 true) scFrame =
      scW [zAt 36, zAt 41, zAt 46, zAt 51] 80 (0 + 1000) true :=
    sc_step _ _ _ (by norm_num) _ _ _ scrun1
  have e2 : stepFrame (scW [zAt 36, zAt 41, zAt 46, zAt 51] 80 (0 + 1000) true) scFrame =
      scW [zAt 36, zAt 41, zAt 46] 60 (0 + 1000 + 1000) true :=
    sc_step _ _ _ (by norm_num) _ _ _ scrun2
  have e3 : stepFrame (scW [zAt 36, zAt 41, zAt 46] 60 (0 + 1000 + 1000) true) scFrame =
      scW [zAt 36, zAt 41] 40 (0 + 1000 + 1000 + 1000) true :=
    sc_step _ _ _ (by norm_num) _ _ _ scrun3
  have e4 : stepFrame (scW [zAt 36, zAt 41] 40 (0 + 1000 + 1000 + 1000) true) scFrame =
      scW [zAt 36] 20 (0 + 1000 + 1000 + 1000 + 1000) true :=
    sc_step _ _ _ (by norm_num) _ _ _ scrun4
  have e5 : stepFrame (scW [zAt 36] 20 (0 + 1000 + 1000 + 1000 + 1000) true) scFrame =
      scW [] 0 (0 + 1000 + 1000 + 1000 + 1000 + 1000) false :=
    sc_step _ _ _ (by norm_num) _ _ _ scrun5
  exact claim_C9 (scW [zAt 36, zAt 41, zAt 46, zAt 51, zAt 56] 100 0 true)
    scFrame scFrame scFrame scFrame scFrame rfl rfl
    (by
      show frameContacts (scW [zAt 36, zAt 41, zAt 46, zAt 51, zAt 56] 100 0 true)
        1 0 baseInput = 1
      rw [sc_frameContacts]
      exact scc1)
    (by
      rw [e1]
      show frameContacts (scW [zAt 36, zAt 41, zAt 46, zAt 51] 80 (0 + 1000) true)
        1 0 baseInput = 1
      rw [sc_frameContacts]
      exact scc2)
    (by
      rw [e1, e2]
      show frameContacts (scW [zAt 36, zAt 41, zAt 46] 60 (0 + 1000 + 1000) true)
        1 0 baseInput = 1
      rw [sc_frameContacts]
      exact scc3)
    (by
      rw [e1, e2, e3]
      show frameContacts (scW [zAt 36, zAt 41] 40 (0 + 1000 + 1000 + 1000) true)
        1 0 baseInput = 1
      rw [sc_frameContacts]
      exact scc4)
    (by
      rw [e1, e2, e3, e4]
      show frameContacts (scW [zAt 36] 20 (0 + 1000 + 1000 + 1000 + 1000) true)
        1 0 baseInput = 1
      rw [sc_frameContacts]
      exact scc5)

end

end ZombieShooter
